import Mathlib

/-!
# A verification model of the skillswap backend

Shallow embedding of the core logic of the skillswap backend: the skill
resolver (`getOrCreateSkill` in the auth/user controller), the skill CRUD
controller, the connection-request state machine
(`connection.controller.ts` together with the static helpers of
`models/Connection.ts`), and the chat message controller.  Stores are
modelled as explicit lists of records; each controller becomes a pure
function from a store and the request data to a response and the updated
store.  MongoDB ObjectIds that only ever flow through already-parsed
request context are modelled as naturals; ids that the code inspects
syntactically (skill tokens, message recipient ids) stay strings.
-/

namespace SkillSwap

/-! ## Identifier syntax

`mongoose.Types.ObjectId.isValid` on a string argument accepts a
24-character hexadecimal string, or any 12-character string (interpreted
as 12 raw bytes; the embedding assumes ASCII input, where characters and
bytes coincide). -/

def isHexDigit (c : Char) : Bool :=
  ('0' ≤ c && c ≤ '9') || ('a' ≤ c && c ≤ 'f') || ('A' ≤ c && c ≤ 'F')

def isValidObjectId (s : String) : Bool :=
  (s.length == 24 && s.data.all isHexDigit) || s.length == 12

/-- ASCII whitespace, the characters JavaScript's `trim` removes in the
inputs this spec exercises. -/
def isWs (c : Char) : Bool :=
  c == ' ' || c == '\t' || c == '\n' || c == '\r'

/-- JavaScript `String.prototype.trim`: strip leading and trailing
whitespace (modelled over the string's character list so that it is fully
executable). -/
def jsTrim (s : String) : String :=
  String.mk (List.rdropWhile isWs (s.data.dropWhile isWs))

/-- ASCII lower-casing of one character. -/
def asciiLower (c : Char) : Char :=
  if 'A' ≤ c && c ≤ 'Z' then Char.ofNat (c.toNat + 32) else c

/-- ASCII lower-casing of a string. -/
def lowerStr (s : String) : String :=
  String.mk (s.data.map asciiLower)

/-- Case-insensitive string equality, the meaning of the anchored
`$regex: ^name$, $options: 'i'` lookup used by the resolver (faithful for
names without regex metacharacters; case folding is ASCII, as in the
names exercised by the spec). -/
def ciEq (a b : String) : Bool :=
  lowerStr a == lowerStr b

instance {ε α : Type _} [DecidableEq ε] [DecidableEq α] : DecidableEq (Except ε α) := fun a b =>
  match a, b with
  | .error e1, .error e2 =>
    if h : e1 = e2 then .isTrue (by rw [h]) else .isFalse (by simp [h])
  | .error _, .ok _ => .isFalse (by simp)
  | .ok _, .error _ => .isFalse (by simp)
  | .ok a1, .ok a2 =>
    if h : a1 = a2 then .isTrue (by rw [h]) else .isFalse (by simp [h])

/-- Hexadecimal digit characters, used to render fresh ObjectIds. -/
def hexDigitChar (n : Nat) : Char :=
  if n < 10 then Char.ofNat (48 + n) else Char.ofNat (87 + n)

/-- A fresh 24-character hexadecimal ObjectId derived from a counter:
the model of MongoDB assigning `_id` on insert. -/
def natToHex24 (n : Nat) : String :=
  String.mk ((List.range 24).map (fun i => hexDigitChar (n / 16 ^ (23 - i) % 16)))

/-! ## Skill store (`models/Skill.ts`)

A skill document has an `_id` and a `name` which is `required`, `trim`med
by the schema and covered by a unique index (exact, case-sensitive, the
MongoDB default collation). -/

structure SkillRec where
  sid : String
  name : String
deriving DecidableEq

structure SkillStore where
  skills : List SkillRec
  nextId : Nat
deriving DecidableEq

/-- Store-level failures of `Skill.create` / `findByIdAndUpdate`:
the E11000 duplicate-key error from the unique index on `name`, and the
mongoose validation error when the `required` name is empty. -/
inductive SkillStoreErr where
  | duplicateKey
  | validationErr
deriving DecidableEq

/-- `Skill.create({ name })`: the schema trims the name, rejects an empty
name (`required`), and the unique index rejects an exact duplicate. -/
def skillCreateDoc (s : SkillStore) (name : String) :
    Except SkillStoreErr (SkillRec × SkillStore) :=
  let t := jsTrim name
  if t == "" then .error .validationErr
  else if s.skills.any (fun r => r.name == t) then .error .duplicateKey
  else
    let r : SkillRec := ⟨natToHex24 s.nextId, t⟩
    .ok (r, ⟨s.skills ++ [r], s.nextId + 1⟩)

/-- `Skill.findOne({ name })`: exact (case-sensitive) name lookup. -/
def lookupExact (s : SkillStore) (name : String) : Option SkillRec :=
  s.skills.find? (fun r => r.name == name)

/-- `Skill.findOne({ name: { $regex: ^name$, $options: 'i' } })`:
case-insensitive name lookup. -/
def lookupCI (s : SkillStore) (name : String) : Option SkillRec :=
  s.skills.find? (fun r => ciEq r.name name)

/-! ## Skill controller (`skill.controller.ts`) -/

inductive SkillApiErr where
  | nameRequired
  | alreadyExists
  | skillNotFound
  | storeErr (e : SkillStoreErr)
deriving DecidableEq

/-- `createSkill`: rejects a missing/blank name, rejects when an exact
trimmed-name match already exists (`Skill already exists`), otherwise
creates the skill with the trimmed name. -/
def createSkill (s : SkillStore) (name : String) :
    Except SkillApiErr (SkillRec × SkillStore) :=
  if jsTrim name == "" then .error .nameRequired
  else match lookupExact s (jsTrim name) with
    | some _ => .error .alreadyExists
    | none =>
      match skillCreateDoc s (jsTrim name) with
      | .ok (r, s') => .ok (r, s')
      | .error e => .error (.storeErr e)

/-- `updateSkill`: rejects a blank name, 404s when the id is unknown,
otherwise renames via `findByIdAndUpdate`; only the store's exact-name
unique index can reject the new name (E11000, surfaced through the
controller's catch). -/
def updateSkill (s : SkillStore) (id : String) (name : String) :
    Except SkillApiErr (SkillRec × SkillStore) :=
  if jsTrim name == "" then .error .nameRequired
  else
    let t := jsTrim name
    match s.skills.find? (fun r => r.sid == id) with
    | none => .error .skillNotFound
    | some r =>
      if s.skills.any (fun r2 => r2.sid != id && r2.name == t) then
        .error (.storeErr .duplicateKey)
      else
        .ok ({ r with name := t },
          { s with skills :=
              s.skills.map (fun r2 => if r2.sid == id then { r2 with name := t } else r2) })

/-! ## Skill resolver (`getOrCreateSkill` in the user/auth controller) -/

/-- `getOrCreateSkill(skill)`: a syntactically valid ObjectId is returned
unchanged without touching the store; otherwise a case-insensitive lookup
of the trimmed token, and on a miss a create.  There is no handler around
the create: a store error propagates to the caller. -/
def getOrCreateSkill (s : SkillStore) (skill : String) :
    Except SkillStoreErr (String × SkillStore) :=
  if isValidObjectId skill then .ok (skill, s)
  else match lookupCI s (jsTrim skill) with
    | some r => .ok (r.sid, s)
    | none =>
      match skillCreateDoc s (jsTrim skill) with
      | .ok (r, s') => .ok (r.sid, s')
      | .error e => .error e

/-- `getOrCreateSkill` with the interleaving made explicit: the `findOne`
await runs against store snapshot `sLook`, and by the time the `create`
await runs a concurrent request may have committed, so the create runs
against snapshot `sCreate`.  `getOrCreateSkill s = getOrCreateSkillRace s s`
(no interleaving). -/
def getOrCreateSkillRace (sLook sCreate : SkillStore) (skill : String) :
    Except SkillStoreErr (String × SkillStore) :=
  if isValidObjectId skill then .ok (skill, sCreate)
  else match lookupCI sLook (jsTrim skill) with
    | some r => .ok (r.sid, sCreate)
    | none =>
      match skillCreateDoc sCreate (jsTrim skill) with
      | .ok (r, s') => .ok (r.sid, s')
      | .error e => .error e

/-- Resolution of a list of tokens (`Promise.all(skills.map(getOrCreateSkill))`),
sequenced left to right; all must succeed or the whole call fails. -/
def resolveAll : SkillStore → List String → Except SkillStoreErr (List String × SkillStore)
  | s, [] => .ok ([], s)
  | s, t :: ts =>
    match getOrCreateSkill s t with
    | .error e => .error e
    | .ok (i, s') =>
      match resolveAll s' ts with
      | .error e => .error e
      | .ok (is, s'') => .ok (i :: is, s'')

/-! ## Connection store (`models/Connection.ts`)

User and connection ids here only ever flow through already-parsed request
context (`req.user._id`, path params), so they are modelled as naturals
ranging over well-formed ObjectIds; the controllers' syntactic
`ObjectId.isValid` guards are parsing concerns that always pass on this
domain.  The store also carries the set of existing user ids (the `User`
collection restricted to what the connection controllers consult) and a
logical clock for `createdAt`. -/

inductive ConnectionStatus where
  | pending
  | accepted
  | rejected
  | blocked
deriving DecidableEq

structure ConnRec where
  cid : Nat
  requester : Nat
  recipient : Nat
  status : ConnectionStatus
  message : Option String
  createdAt : Nat
deriving DecidableEq

structure ConnStore where
  conns : List ConnRec
  users : List Nat
  nextId : Nat
  now : Nat
deriving DecidableEq

/-- The `$or` predicate of the static `Connection.getConnection`: a record
between the two users in either direction. -/
def connMatches (user1Id user2Id : Nat) (c : ConnRec) : Bool :=
  (c.requester == user1Id && c.recipient == user2Id) ||
  (c.requester == user2Id && c.recipient == user1Id)

/-- `Connection.getConnection(user1Id, user2Id)`: `findOne` over both
directional orderings of the pair. -/
def getConnection (s : ConnStore) (user1Id user2Id : Nat) : Option ConnRec :=
  s.conns.find? (connMatches user1Id user2Id)

/-- `Connection.findById`. -/
def connFindById (s : ConnStore) (id : Nat) : Option ConnRec :=
  s.conns.find? (fun c => c.cid == id)

/-- Insertion sort by `createdAt` descending: the `sort({ createdAt: -1 })`
of the query helpers. -/
def insertDesc (c : ConnRec) : List ConnRec → List ConnRec
  | [] => [c]
  | d :: ds => if d.createdAt ≤ c.createdAt then c :: d :: ds else d :: insertDesc c ds

def sortByCreatedDesc : List ConnRec → List ConnRec
  | [] => []
  | c :: cs => insertDesc c (sortByCreatedDesc cs)

/-- `Connection.getUserConnections(userId, status?)`: all records where the
user is requester or recipient, optionally filtered by status, newest
first. -/
def getUserConnections (s : ConnStore) (userId : Nat)
    (status : Option ConnectionStatus) : List ConnRec :=
  sortByCreatedDesc (s.conns.filter (fun c =>
    (c.requester == userId || c.recipient == userId) &&
    (match status with
     | none => true
     | some st => c.status == st)))

/-- `Connection.getPendingRequests(userId)`: records where the user is the
recipient and the status is pending, newest first. -/
def getPendingRequests (s : ConnStore) (userId : Nat) : List ConnRec :=
  sortByCreatedDesc (s.conns.filter (fun c =>
    c.recipient == userId && c.status == ConnectionStatus.pending))

/-! ## Connection controllers (`connection.controller.ts`) -/

/-- The error responses of `sendConnectionRequest`:
404 recipient not found, 400 self-connection, 400 `Connection already
exists` carrying the existing record's status, and the mongoose
`maxlength: 500` validation error on the optional message. -/
inductive SendErr where
  | recipientNotFound
  | selfConnection
  | alreadyExists (status : ConnectionStatus)
  | messageTooLong
deriving DecidableEq

/-- `message?.trim() || undefined`: a missing message, or one that trims
to the empty string, is stored as absent. -/
def normMessage : Option String → Option String
  | none => none
  | some m => if jsTrim m == "" then none else some (jsTrim m)

def msgLen : Option String → Nat
  | none => 0
  | some m => m.length

/-- `sendConnectionRequest`: recipient must exist, no self-connection, no
record may already exist between the pair in either direction; the new
record is created pending.  Error paths return before any write, so the
store comes back unchanged. -/
def sendConnectionRequest (s : ConnStore) (requesterId recipientId : Nat)
    (message : Option String) : Except SendErr ConnRec × ConnStore :=
  if !(s.users.contains recipientId) then (.error .recipientNotFound, s)
  else if requesterId == recipientId then (.error .selfConnection, s)
  else match getConnection s requesterId recipientId with
    | some existing => (.error (.alreadyExists existing.status), s)
    | none =>
      let msg := normMessage message
      if 500 < msgLen msg then (.error .messageTooLong, s)
      else
        let c : ConnRec :=
          ⟨s.nextId, requesterId, recipientId, ConnectionStatus.pending, msg, s.now⟩
        (.ok c, { s with conns := c :: s.conns, nextId := s.nextId + 1, now := s.now + 1 })

/-- The error responses shared by accept / reject / cancel / remove:
404 no such record, 403 wrong actor, 400 wrong current status (carrying
the actual status). -/
inductive ActErr where
  | notFound
  | forbidden
  | notPending (status : ConnectionStatus)
  | notAccepted (status : ConnectionStatus)
deriving DecidableEq

/-- `acceptConnectionRequest`: the record must exist, the actor must be its
recipient, the status must be pending; then the status becomes accepted. -/
def acceptConnectionRequest (s : ConnStore) (connectionId userId : Nat) :
    Except ActErr ConnRec × ConnStore :=
  match connFindById s connectionId with
  | none => (.error .notFound, s)
  | some c =>
    if c.recipient != userId then (.error .forbidden, s)
    else if c.status != ConnectionStatus.pending then (.error (.notPending c.status), s)
    else
      (.ok { c with status := ConnectionStatus.accepted },
       { s with conns := s.conns.map (fun d =>
           if d.cid == connectionId then { d with status := ConnectionStatus.accepted } else d) })

/-- `rejectConnectionRequest`: same guards as accept; the status becomes
rejected. -/
def rejectConnectionRequest (s : ConnStore) (connectionId userId : Nat) :
    Except ActErr ConnRec × ConnStore :=
  match connFindById s connectionId with
  | none => (.error .notFound, s)
  | some c =>
    if c.recipient != userId then (.error .forbidden, s)
    else if c.status != ConnectionStatus.pending then (.error (.notPending c.status), s)
    else
      (.ok { c with status := ConnectionStatus.rejected },
       { s with conns := s.conns.map (fun d =>
           if d.cid == connectionId then { d with status := ConnectionStatus.rejected } else d) })

/-- `cancelConnectionRequest`: the record must exist, the actor must be its
requester, the status must be pending; then the record is deleted. -/
def cancelConnectionRequest (s : ConnStore) (connectionId userId : Nat) :
    Except ActErr Unit × ConnStore :=
  match connFindById s connectionId with
  | none => (.error .notFound, s)
  | some c =>
    if c.requester != userId then (.error .forbidden, s)
    else if c.status != ConnectionStatus.pending then (.error (.notPending c.status), s)
    else (.ok (), { s with conns := s.conns.filter (fun d => d.cid != connectionId) })

/-- `removeConnection`: the record must exist, the actor must be either
party, the status must be accepted; then the record is deleted. -/
def removeConnection (s : ConnStore) (connectionId userId : Nat) :
    Except ActErr Unit × ConnStore :=
  match connFindById s connectionId with
  | none => (.error .notFound, s)
  | some c =>
    if c.requester != userId && c.recipient != userId then (.error .forbidden, s)
    else if c.status != ConnectionStatus.accepted then (.error (.notAccepted c.status), s)
    else (.ok (), { s with conns := s.conns.filter (fun d => d.cid != connectionId) })

/-- Response of `getAllConnectionRequests`: the matching records split into
sent (user is requester) and received (user is recipient).  The `status`
query parameter is modelled post-validation: an absent or unrecognised
value means no filter. -/
structure AllConnResp where
  count : Nat
  sent : List ConnRec
  received : List ConnRec
  all : List ConnRec
deriving DecidableEq

def getAllConnectionRequests (s : ConnStore) (userId : Nat)
    (status : Option ConnectionStatus) : AllConnResp :=
  let connections := getUserConnections s userId status
  let sentRequests := connections.filter (fun c => c.requester == userId)
  let receivedRequests := connections.filter (fun c => c.recipient == userId)
  ⟨connections.length, sentRequests, receivedRequests, connections⟩

/-- The response paths of `getConnectionStatus`: 404 unknown user, the
`{status: 'none'}` body when no record exists, or the record's status with
the derived relationship label. -/
inductive StatusResult where
  | userNotFound
  | noConnection
  | found (status : ConnectionStatus) (relationship : String) (c : ConnRec)
deriving DecidableEq

/-- The relationship label derivation of `getConnectionStatus`: initialised
to `none`, then overwritten for accepted / pending / rejected. -/
def relationshipFor (c : ConnRec) (currentUserId : Nat) : String :=
  if c.status == ConnectionStatus.accepted then "connected"
  else if c.status == ConnectionStatus.pending then
    (if c.requester == currentUserId then "request_sent" else "request_received")
  else if c.status == ConnectionStatus.rejected then "rejected"
  else "none"

/-- `getConnectionStatus`: the queried user must exist; then the pair is
looked up in both directions and the status plus relationship label is
reported. -/
def getConnectionStatus (s : ConnStore) (currentUserId userId : Nat) : StatusResult :=
  if !(s.users.contains userId) then .userNotFound
  else match getConnection s currentUserId userId with
    | none => .noConnection
    | some c => .found c.status (relationshipFor c currentUserId) c

/-! ## Message store and chat controller (`models/Message.ts`,
`chat.controller.ts`)

The recipient id arrives raw in the request body and is syntactically
validated, so message ids stay strings. -/

structure MsgRec where
  sender : String
  recipient : String
  content : String
  read : Bool
deriving DecidableEq

structure MsgStore where
  messages : List MsgRec
  users : List String
deriving DecidableEq

/-- Error responses of `sendMessage`, in guard order: 400 invalid recipient
id, 400 missing/blank content, 400 self-message, 404 sender or recipient
unknown. -/
inductive MsgErr where
  | invalidRecipientId
  | contentRequired
  | selfMessage
  | userNotFound
deriving DecidableEq

/-- The 400-class (validation) errors of `sendMessage`. -/
def msgErrIsValidation : MsgErr → Bool
  | .invalidRecipientId => true
  | .contentRequired => true
  | .selfMessage => true
  | .userNotFound => false

/-- `sendMessage`: validates the recipient id syntax, requires non-blank
content, forbids sending to oneself, requires both users to exist, then
stores the trimmed content as an unread message. -/
def sendMessage (s : MsgStore) (senderId recipientId : String) (content : String) :
    Except MsgErr MsgRec × MsgStore :=
  if !(isValidObjectId recipientId) then (.error .invalidRecipientId, s)
  else if jsTrim content == "" then (.error .contentRequired, s)
  else if senderId == recipientId then (.error .selfMessage, s)
  else if !(s.users.contains senderId) || !(s.users.contains recipientId) then
    (.error .userNotFound, s)
  else
    let m : MsgRec := ⟨senderId, recipientId, jsTrim content, false⟩
    (.ok m, { s with messages := s.messages ++ [m] })

/-! ## Store invariants -/

/-- Two connection records concern the same unordered user pair. -/
def samePair (c1 c2 : ConnRec) : Prop :=
  (c1.requester = c2.requester ∧ c1.recipient = c2.recipient) ∨
  (c1.requester = c2.recipient ∧ c1.recipient = c2.requester)

instance (c1 c2 : ConnRec) : Decidable (samePair c1 c2) := by
  unfold samePair; infer_instance

/-- At most one connection record per unordered user pair, regardless of
direction. -/
def PairUnique (s : ConnStore) : Prop :=
  ∀ c1 ∈ s.conns, ∀ c2 ∈ s.conns, samePair c1 c2 → c1 = c2

instance (s : ConnStore) : Decidable (PairUnique s) := by
  unfold PairUnique; infer_instance

/-- No self-connections: the invariant enforced by the schema's pre-save
hook. -/
def NoSelf (s : ConnStore) : Prop :=
  ∀ c ∈ s.conns, c.requester ≠ c.recipient

instance (s : ConnStore) : Decidable (NoSelf s) := by
  unfold NoSelf; infer_instance

/-- Case-insensitive uniqueness of skill names: no two skill records share
a name under case-insensitive comparison. -/
def CiUnique (s : SkillStore) : Prop :=
  ∀ r1 ∈ s.skills, ∀ r2 ∈ s.skills, ciEq r1.name r2.name = true → r1 = r2

instance (s : SkillStore) : Decidable (CiUnique s) := by
  unfold CiUnique; infer_instance

/-! ## Helper lemmas -/

theorem dropWhile_cons_head_false {α : Type _} (p : α → Bool) (l : List α) (a : α)
    (t : List α) (h : l.dropWhile p = a :: t) : p a = false := by
  induction l with
  | nil => simp [List.dropWhile] at h
  | cons b l ih =>
    rw [List.dropWhile_cons] at h
    split at h
    · exact ih h
    · injection h with h1 _
      subst h1
      simpa using ‹¬ p b = true›

theorem dropWhile_rdropWhile_self {α : Type _} (p : α → Bool) (l : List α) :
    (List.rdropWhile p (l.dropWhile p)).dropWhile p = List.rdropWhile p (l.dropWhile p) := by
  have hpre : List.rdropWhile p (l.dropWhile p) <+: l.dropWhile p := List.rdropWhile_prefix p _
  obtain ⟨t, ht⟩ := hpre
  cases hrc : List.rdropWhile p (l.dropWhile p) with
  | nil => rfl
  | cons a r' =>
    rw [hrc] at ht
    have hhead : p a = false := by
      apply dropWhile_cons_head_false p l a (r' ++ t)
      rw [← ht]
      rfl
    simp [List.dropWhile_cons, hhead]

theorem trimList_idem (l : List Char) :
    List.rdropWhile isWs ((List.rdropWhile isWs (l.dropWhile isWs)).dropWhile isWs) =
      List.rdropWhile isWs (l.dropWhile isWs) := by
  rw [dropWhile_rdropWhile_self]
  exact List.rdropWhile_idempotent isWs _

theorem jsTrim_idem (s : String) : jsTrim (jsTrim s) = jsTrim s := by
  unfold jsTrim
  exact congrArg String.mk (trimList_idem s.data)

theorem ciEq_refl (a : String) : ciEq a a = true := by
  simp [ciEq]

theorem ciEq_symm (a b : String) : ciEq a b = ciEq b a := by
  unfold ciEq
  by_cases h : lowerStr a = lowerStr b
  · rw [h]
  · rw [beq_eq_false_iff_ne.mpr h, beq_eq_false_iff_ne.mpr (Ne.symm h)]

theorem ciEq_trans {a b c : String} (h1 : ciEq a b = true) (h2 : ciEq b c = true) :
    ciEq a c = true := by
  unfold ciEq at *
  rw [beq_iff_eq] at *
  exact h1.trans h2

theorem ciEq_congr_right {a b : String} (h : ciEq a b = true) (c : String) :
    ciEq c a = ciEq c b := by
  unfold ciEq at *
  rw [beq_iff_eq] at h
  rw [h]

theorem ciEq_of_eq {a b : String} (h : a = b) : ciEq a b = true := h ▸ ciEq_refl a

theorem lookupCI_congr {a b : String} (h : ciEq a b = true) (s : SkillStore) :
    lookupCI s a = lookupCI s b := by
  unfold lookupCI
  have hp : (fun r : SkillRec => ciEq r.name a) = fun r : SkillRec => ciEq r.name b :=
    funext fun r => ciEq_congr_right h r.name
  rw [hp]

theorem connMatches_symm (u1 u2 : Nat) : connMatches u1 u2 = connMatches u2 u1 := by
  funext c
  unfold connMatches
  rw [Bool.or_comm]

theorem getConnection_symm (s : ConnStore) (u1 u2 : Nat) :
    getConnection s u1 u2 = getConnection s u2 u1 := by
  unfold getConnection
  rw [connMatches_symm]

theorem find?_map_pred {α β : Type _} (f : α → β) (p : β → Bool) (q : α → Bool) (l : List α)
    (h : ∀ a, p (f a) = q a) : (l.map f).find? p = (l.find? q).map f := by
  induction l with
  | nil => rfl
  | cons a l ih =>
    simp only [List.map_cons, List.find?, h a]
    cases q a
    · simpa using ih
    · rfl

theorem mem_insertDesc {c d : ConnRec} {l : List ConnRec} :
    d ∈ insertDesc c l ↔ d ∈ c :: l := by
  induction l with
  | nil => simp [insertDesc]
  | cons a l ih =>
    unfold insertDesc
    split
    · simp
    · simp only [List.mem_cons] at *
      tauto

theorem mem_sortByCreatedDesc {c : ConnRec} {l : List ConnRec} :
    c ∈ sortByCreatedDesc l ↔ c ∈ l := by
  induction l with
  | nil => simp [sortByCreatedDesc]
  | cons a l ih =>
    simp [sortByCreatedDesc, mem_insertDesc, ih]

theorem length_filter_partition {α : Type _} (p q : α → Bool) (l : List α)
    (h : ∀ x ∈ l, p x = !q x) :
    l.length = (l.filter p).length + (l.filter q).length := by
  induction l with
  | nil => rfl
  | cons a l ih =>
    have ha := h a (List.mem_cons_self a l)
    have ih' := ih fun x hx => h x (List.mem_cons_of_mem a hx)
    cases hq : q a
    · rw [hq] at ha
      simp only [Bool.not_false] at ha
      simp [List.filter_cons, ha, hq]
      omega
    · rw [hq] at ha
      simp only [Bool.not_true] at ha
      simp [List.filter_cons, ha, hq]
      omega

theorem skillCreateDoc_ok (s : SkillStore) (nm : String)
    (hnm : jsTrim nm = nm) (hne : nm ≠ "")
    (hany : (s.skills.any fun r => r.name == nm) = false) :
    skillCreateDoc s nm =
      .ok (⟨natToHex24 s.nextId, nm⟩,
        ⟨s.skills ++ [⟨natToHex24 s.nextId, nm⟩], s.nextId + 1⟩) := by
  unfold skillCreateDoc
  simp [hnm, beq_eq_false_iff_ne.mpr hne, hany]

theorem getOrCreateSkill_found (s : SkillStore) (t : String) (r : SkillRec)
    (hid : isValidObjectId t = false) (hfind : lookupCI s (jsTrim t) = some r) :
    getOrCreateSkill s t = .ok (r.sid, s) := by
  simp [getOrCreateSkill, hid, hfind]

theorem getOrCreateSkill_create (s : SkillStore) (t : String)
    (hid : isValidObjectId t = false) (hmiss : lookupCI s (jsTrim t) = none)
    (hne : jsTrim t ≠ "") :
    getOrCreateSkill s t =
      .ok (natToHex24 s.nextId,
        ⟨s.skills ++ [⟨natToHex24 s.nextId, jsTrim t⟩], s.nextId + 1⟩) := by
  have hall : ∀ r ∈ s.skills, ¬ (ciEq r.name (jsTrim t) = true) :=
    List.find?_eq_none.mp hmiss
  have hany : (s.skills.any fun r => r.name == jsTrim t) = false := by
    rw [List.any_eq_false]
    intro r hr
    cases hb : (r.name == jsTrim t) with
    | false => simp
    | true => exact absurd (ciEq_of_eq (beq_iff_eq.mp hb)) (hall r hr)
  have hdoc := skillCreateDoc_ok s (jsTrim t) (jsTrim_idem t) hne hany
  simp [getOrCreateSkill, hid, hmiss, hdoc]

theorem lookupCI_snoc (s : SkillStore) (r0 : SkillRec) (m : Nat) (q : String)
    (hmiss : lookupCI s q = none) (hci : ciEq r0.name q = true) :
    lookupCI ⟨s.skills ++ [r0], m⟩ q = some r0 := by
  unfold lookupCI at *
  rw [List.find?_append, hmiss]
  simp [List.find?, hci]

theorem resolveAll_trio (s : SkillStore) (t1 t2 t3 : String)
    (h1 : isValidObjectId t1 = false) (h2 : isValidObjectId t2 = false)
    (h3 : isValidObjectId t3 = false)
    (e12 : ciEq (jsTrim t1) (jsTrim t2) = true)
    (e13 : ciEq (jsTrim t1) (jsTrim t3) = true)
    (hne : jsTrim t1 ≠ "")
    (hmiss : lookupCI s (jsTrim t1) = none) :
    ∃ i s', resolveAll s [t1, t2, t3] = .ok ([i, i, i], s') ∧
      s'.skills.length = s.skills.length + 1 := by
  have hstep1 := getOrCreateSkill_create s t1 h1 hmiss hne
  have hself : ciEq (SkillRec.mk (natToHex24 s.nextId) (jsTrim t1)).name (jsTrim t1) = true :=
    ciEq_refl _
  have hbase : lookupCI ⟨s.skills ++ [⟨natToHex24 s.nextId, jsTrim t1⟩], s.nextId + 1⟩
      (jsTrim t1) = some ⟨natToHex24 s.nextId, jsTrim t1⟩ :=
    lookupCI_snoc s _ _ _ hmiss hself
  have e21 : ciEq (jsTrim t2) (jsTrim t1) = true := by rw [ciEq_symm]; exact e12
  have e31 : ciEq (jsTrim t3) (jsTrim t1) = true := by rw [ciEq_symm]; exact e13
  have hfound2 : lookupCI ⟨s.skills ++ [⟨natToHex24 s.nextId, jsTrim t1⟩], s.nextId + 1⟩
      (jsTrim t2) = some ⟨natToHex24 s.nextId, jsTrim t1⟩ := by
    rw [lookupCI_congr e21]
    exact hbase
  have hfound3 : lookupCI ⟨s.skills ++ [⟨natToHex24 s.nextId, jsTrim t1⟩], s.nextId + 1⟩
      (jsTrim t3) = some ⟨natToHex24 s.nextId, jsTrim t1⟩ := by
    rw [lookupCI_congr e31]
    exact hbase
  have hstep2 := getOrCreateSkill_found _ t2 _ h2 hfound2
  have hstep3 := getOrCreateSkill_found _ t3 _ h3 hfound3
  refine ⟨natToHex24 s.nextId, ⟨s.skills ++ [⟨natToHex24 s.nextId, jsTrim t1⟩], s.nextId + 1⟩,
    ?_, ?_⟩
  · simp [resolveAll, hstep1, hstep2, hstep3]
  · simp

/-! ## Claims about the skill resolver and skill controller -/

/-- C8: for every token that is a syntactically valid identifier, resolve
returns the token unchanged and leaves the store untouched — no lookup, no
creation, no existence check. -/
theorem resolver_returns_valid_id_unchanged (s : SkillStore) (tok : String)
    (h : isValidObjectId tok = true) :
    getOrCreateSkill s tok = .ok (tok, s) := by
  simp [getOrCreateSkill, h]

/-- C8 witness: a valid 24-hex ObjectId token is returned as-is even though
no skill with that identifier exists and an existing skill's name equals
the token. -/
theorem resolver_returns_valid_id_unchanged_witness :
    isValidObjectId "507f1f77bcf86cd799439011" = true ∧
    getOrCreateSkill
        (SkillStore.mk [SkillRec.mk "aaaaaaaaaaaaaaaaaaaaaaaa" "507f1f77bcf86cd799439011"] 7)
        "507f1f77bcf86cd799439011" =
      .ok ("507f1f77bcf86cd799439011",
        SkillStore.mk [SkillRec.mk "aaaaaaaaaaaaaaaaaaaaaaaa" "507f1f77bcf86cd799439011"] 7) :=
  ⟨by decide, resolver_returns_valid_id_unchanged _ _ (by decide)⟩

/-- C2 counterexample: under the create race (lookup snapshot without
"python", a concurrent creator commits "python" before the create runs),
the resolver does not re-fetch and return the winner's id: the duplicate-key
error propagates and the call fails. -/
theorem resolver_race_not_absorbed_cex :
    lookupCI (SkillStore.mk [] 0) (jsTrim "python") = none ∧
    skillCreateDoc (SkillStore.mk [SkillRec.mk "507f1f77bcf86cd799439099" "python"] 1)
        (jsTrim "python") = .error .duplicateKey ∧
    getOrCreateSkillRace (SkillStore.mk [] 0)
        (SkillStore.mk [SkillRec.mk "507f1f77bcf86cd799439099" "python"] 1) "python" =
      .error .duplicateKey := by
  decide

/-- C2 amended: when the case-insensitive lookup finds no skill and the
subsequent create is rejected by the store, the resolver does not absorb
the violation — the store error propagates and the whole call fails. -/
theorem resolver_race_propagates_store_error (sLook sCreate : SkillStore) (tok : String)
    (e : SkillStoreErr)
    (hid : isValidObjectId tok = false)
    (hmiss : lookupCI sLook (jsTrim tok) = none)
    (hcreate : skillCreateDoc sCreate (jsTrim tok) = .error e) :
    getOrCreateSkillRace sLook sCreate tok = .error e := by
  simp [getOrCreateSkillRace, hid, hmiss, hcreate]

/-- C2 amended witness: a concrete lost race on the token "go". -/
theorem resolver_race_propagates_store_error_witness :
    isValidObjectId "go" = false ∧
    lookupCI (SkillStore.mk [] 0) (jsTrim "go") = none ∧
    skillCreateDoc (SkillStore.mk [SkillRec.mk "507f1f77bcf86cd799439098" "go"] 1)
        (jsTrim "go") = .error .duplicateKey ∧
    getOrCreateSkillRace (SkillStore.mk [] 0)
        (SkillStore.mk [SkillRec.mk "507f1f77bcf86cd799439098" "go"] 1) "go" =
      .error .duplicateKey :=
  ⟨by decide, by decide, by decide,
    resolver_race_propagates_store_error _ _ _ _ (by decide) (by decide) (by decide)⟩

/-- C3: resolving "javascript", "JavaScript" and "  JavaScript  " in any
order, starting from a store with no case-insensitive match for
"javascript", yields the same skill identifier three times and creates
exactly one skill record. -/
theorem resolver_idempotent_under_case_and_trim (s : SkillStore) (l : List String)
    (hperm : l.Perm ["javascript", "JavaScript", "  JavaScript  "])
    (hmiss : lookupCI s "javascript" = none) :
    ∃ i s', resolveAll s l = .ok ([i, i, i], s') ∧
      s'.skills.length = s.skills.length + 1 := by
  have hlen : l.length = 3 := hperm.length_eq
  rcases l with _ | ⟨t1, _ | ⟨t2, _ | ⟨t3, _ | ⟨t4, rest⟩⟩⟩⟩ <;> simp at hlen
  have hmem : ∀ t ∈ [t1, t2, t3],
      isValidObjectId t = false ∧ ciEq (jsTrim t) "javascript" = true ∧ jsTrim t ≠ "" := by
    intro t ht
    have h3 : t ∈ ["javascript", "JavaScript", "  JavaScript  "] := hperm.subset ht
    simp only [List.mem_cons, List.not_mem_nil, or_false] at h3
    rcases h3 with rfl | rfl | rfl
    · exact ⟨by decide, by decide, by decide⟩
    · exact ⟨by decide, by decide, by decide⟩
    · exact ⟨by decide, by decide, by decide⟩
  obtain ⟨v1, c1, n1⟩ := hmem t1 (by simp)
  obtain ⟨v2, c2, n2⟩ := hmem t2 (by simp)
  obtain ⟨v3, c3, n3⟩ := hmem t3 (by simp)
  have e12 : ciEq (jsTrim t1) (jsTrim t2) = true := by
    rw [ciEq_symm] at c2
    exact ciEq_trans c1 c2
  have e13 : ciEq (jsTrim t1) (jsTrim t3) = true := by
    rw [ciEq_symm] at c3
    exact ciEq_trans c1 c3
  have hmiss1 : lookupCI s (jsTrim t1) = none := by
    rw [lookupCI_congr c1]
    exact hmiss
  exact resolveAll_trio s t1 t2 t3 v1 v2 v3 e12 e13 n1 hmiss1

/-- C3 witness: a concrete non-identity ordering of the three tokens on the
empty store. -/
theorem resolver_idempotent_under_case_and_trim_witness :
    ∃ i s', resolveAll (SkillStore.mk [] 0) ["JavaScript", "  JavaScript  ", "javascript"] =
        .ok ([i, i, i], s') ∧
      s'.skills.length = (SkillStore.mk [] 0).skills.length + 1 :=
  resolver_idempotent_under_case_and_trim (SkillStore.mk [] 0)
    ["JavaScript", "  JavaScript  ", "javascript"] (by decide) (by decide)

/-- C4: the case-insensitive name-uniqueness invariant is NOT preserved by
explicit create — `createSkill` only checks an exact (case-sensitive)
trimmed-name match, so creating "javascript" while "JavaScript" exists
succeeds and yields two skills whose names collide case-insensitively
(which the repository's own test expects to be rejected). -/
theorem createSkill_breaks_ci_uniqueness :
    CiUnique (SkillStore.mk [SkillRec.mk "507f191e810c19729de860ea" "JavaScript"] 3) ∧
    ciEq "JavaScript" "javascript" = true ∧
    createSkill (SkillStore.mk [SkillRec.mk "507f191e810c19729de860ea" "JavaScript"] 3)
        "javascript" =
      .ok (SkillRec.mk (natToHex24 3) "javascript",
        SkillStore.mk
          [SkillRec.mk "507f191e810c19729de860ea" "JavaScript",
           SkillRec.mk (natToHex24 3) "javascript"] 4) ∧
    ¬ CiUnique
        (SkillStore.mk
          [SkillRec.mk "507f191e810c19729de860ea" "JavaScript",
           SkillRec.mk (natToHex24 3) "javascript"] 4) := by
  decide

/-! ## Claims about the connection state machine -/

theorem samePair_symm {c1 c2 : ConnRec} (h : samePair c1 c2) : samePair c2 c1 := by
  rcases h with ⟨h1, h2⟩ | ⟨h1, h2⟩
  · exact Or.inl ⟨h1.symm, h2.symm⟩
  · exact Or.inr ⟨h2.symm, h1.symm⟩

theorem samePair_of_connMatches {x y : Nat} {c d : ConnRec}
    (hx : c.requester = x) (hy : c.recipient = y)
    (h : connMatches x y d = true) : samePair c d := by
  unfold connMatches at h
  simp only [Bool.or_eq_true, Bool.and_eq_true, beq_iff_eq] at h
  rcases h with ⟨ha, hb⟩ | ⟨ha, hb⟩
  · exact Or.inl ⟨hx.trans ha.symm, hy.trans hb.symm⟩
  · exact Or.inr ⟨hx.trans hb.symm, hy.trans ha.symm⟩

theorem connMatches_of_samePair {x y : Nat} {c d : ConnRec}
    (hx : c.requester = x) (hy : c.recipient = y)
    (h : samePair c d) : connMatches x y d = true := by
  unfold connMatches
  simp only [Bool.or_eq_true, Bool.and_eq_true, beq_iff_eq]
  rcases h with ⟨h1, h2⟩ | ⟨h1, h2⟩
  · exact Or.inl ⟨h1.symm.trans hx, h2.symm.trans hy⟩
  · exact Or.inr ⟨h2.symm.trans hy, h1.symm.trans hx⟩

/-- C1: for distinct existing users A and B with a connection record between
them (in either direction, any status), a send-request in either direction
fails with the Conflict error surfacing the existing record's status and
leaves the store unchanged; and a successful send preserves the
one-record-per-unordered-pair invariant. -/
theorem send_request_bidirectional_conflict (s : ConnStore) (A B : Nat) (msg : Option String)
    (hA : s.users.contains A = true) (hB : s.users.contains B = true) (hAB : A ≠ B) :
    (∀ c, getConnection s A B = some c →
        sendConnectionRequest s A B msg = (.error (.alreadyExists c.status), s) ∧
        sendConnectionRequest s B A msg = (.error (.alreadyExists c.status), s)) ∧
    (∀ c s', sendConnectionRequest s A B msg = (.ok c, s') → PairUnique s → PairUnique s') := by
  have hAm : A ∈ s.users := by simpa using hA
  have hBm : B ∈ s.users := by simpa using hB
  constructor
  · intro c hc
    have hBA : getConnection s B A = some c := by
      rw [getConnection_symm]; exact hc
    constructor
    · simp [sendConnectionRequest, hBm, beq_eq_false_iff_ne.mpr hAB, hc]
    · simp [sendConnectionRequest, hAm, beq_eq_false_iff_ne.mpr (Ne.symm hAB), hBA]
  · intro c s' hsend hu
    cases hgc : getConnection s A B with
    | some d =>
      simp [sendConnectionRequest, hBm, beq_eq_false_iff_ne.mpr hAB, hgc] at hsend
    | none =>
      unfold sendConnectionRequest at hsend
      rw [hB, beq_eq_false_iff_ne.mpr hAB, hgc] at hsend
      simp only [Bool.not_true, Bool.false_eq_true, if_false] at hsend
      split at hsend
      · simp at hsend
      · injection hsend with h1 h2
        subst h2
        have hkey : ∀ d ∈ s.conns,
            ¬ samePair ⟨s.nextId, A, B, ConnectionStatus.pending, normMessage msg, s.now⟩ d := by
          intro d hd hsp
          exact absurd (connMatches_of_samePair rfl rfl hsp) (List.find?_eq_none.mp hgc d hd)
        intro c1 h1m c2 h2m hsp
        rcases List.mem_cons.mp h1m with rfl | h1' <;> rcases List.mem_cons.mp h2m with rfl | h2'
        · rfl
        · exact absurd hsp (hkey c2 h2')
        · exact absurd (samePair_symm hsp) (hkey c1 h1')
        · exact hu c1 h1' c2 h2' hsp

/-- C1 witness: with a pending record between users 1 and 2, sending in
either direction is rejected with the existing status and no record is
created. -/
theorem send_request_bidirectional_conflict_witness :
    sendConnectionRequest (ConnStore.mk [ConnRec.mk 0 1 2 ConnectionStatus.pending none 0] [1, 2] 1 1)
        1 2 none =
      (.error (.alreadyExists ConnectionStatus.pending),
        ConnStore.mk [ConnRec.mk 0 1 2 ConnectionStatus.pending none 0] [1, 2] 1 1) ∧
    sendConnectionRequest (ConnStore.mk [ConnRec.mk 0 1 2 ConnectionStatus.pending none 0] [1, 2] 1 1)
        2 1 none =
      (.error (.alreadyExists ConnectionStatus.pending),
        ConnStore.mk [ConnRec.mk 0 1 2 ConnectionStatus.pending none 0] [1, 2] 1 1) :=
  (send_request_bidirectional_conflict _ 1 2 none (by decide) (by decide) (by decide)).1
    (ConnRec.mk 0 1 2 ConnectionStatus.pending none 0) (by decide)

theorem cid_preserved_by_status_update (id : Nat) (st : ConnectionStatus) (d : ConnRec) :
    ((if d.cid == id then { d with status := st } else d).cid == id) = (d.cid == id) := by
  split <;> rfl

theorem connFindById_after_status_update (s : ConnStore) (id : Nat) (st : ConnectionStatus)
    (c : ConnRec) (hc : connFindById s id = some c) :
    (s.conns.map (fun d => if d.cid == id then { d with status := st } else d)).find?
        (fun d => d.cid == id) =
      some { c with status := st } := by
  rw [find?_map_pred (fun d => if d.cid == id then { d with status := st } else d)
    (fun d => d.cid == id) (fun d => d.cid == id) s.conns
    (cid_preserved_by_status_update id st)]
  have hcfind : s.conns.find? (fun d => d.cid == id) = some c := hc
  rw [hcfind]
  have hpc := List.find?_some hcfind
  simp only at hpc
  have hpc' : c.cid = id := by simpa using hpc
  simp [hpc']

/-- C5: accept fails NotFound when no record with the id exists, Forbidden
when the actor is not the recipient, InvalidState (`not pending`, carrying
the actual status) when the status is not pending — each failure leaving
the store unchanged — and exactly when all three guards pass it sets the
record's status to accepted, both in the response and in the store. -/
theorem accept_guards (s : ConnStore) (id u : Nat) :
    (connFindById s id = none → acceptConnectionRequest s id u = (.error .notFound, s)) ∧
    (∀ c, connFindById s id = some c →
      (c.recipient ≠ u → acceptConnectionRequest s id u = (.error .forbidden, s)) ∧
      (c.recipient = u → c.status ≠ ConnectionStatus.pending →
        acceptConnectionRequest s id u = (.error (.notPending c.status), s)) ∧
      (c.recipient = u → c.status = ConnectionStatus.pending →
        ∃ s', acceptConnectionRequest s id u =
            (.ok { c with status := ConnectionStatus.accepted }, s') ∧
          connFindById s' id = some { c with status := ConnectionStatus.accepted })) := by
  refine ⟨fun h => by simp [acceptConnectionRequest, h], fun c hc => ⟨?_, ?_, ?_⟩⟩
  · intro hne
    simp [acceptConnectionRequest, hc, bne_iff_ne.mpr hne]
  · intro hrec hst
    simp [acceptConnectionRequest, hc, hrec, bne_iff_ne.mpr hst]
  · intro hrec hst
    refine ⟨{ s with conns := s.conns.map (fun d =>
        if d.cid == id then { d with status := ConnectionStatus.accepted } else d) }, ?_, ?_⟩
    · simp [acceptConnectionRequest, hc, hrec, hst]
    · exact connFindById_after_status_update s id ConnectionStatus.accepted c hc

/-- C5 witness: on a store with one pending record (id 0, requester 1,
recipient 2), user 2 accepting succeeds and the stored record becomes
accepted. -/
theorem accept_guards_witness :
    ∃ s', acceptConnectionRequest
        (ConnStore.mk [ConnRec.mk 0 1 2 ConnectionStatus.pending none 0] [1, 2] 1 1) 0 2 =
        (.ok (ConnRec.mk 0 1 2 ConnectionStatus.accepted none 0), s') ∧
      connFindById s' 0 = some (ConnRec.mk 0 1 2 ConnectionStatus.accepted none 0) :=
  ((accept_guards (ConnStore.mk [ConnRec.mk 0 1 2 ConnectionStatus.pending none 0] [1, 2] 1 1)
      0 2).2 (ConnRec.mk 0 1 2 ConnectionStatus.pending none 0) (by decide)).2.2 rfl rfl

/-- C6: for distinct existing users A and B, the status lookups in the two
directions report the same underlying record and status; both report
`none` when no record exists; the relationship label is `connected` when
accepted, `rejected` when rejected, and for a pending record it is
`request_sent` for the requester's query and `request_received` for the
recipient's query. -/
theorem status_lookup_symmetric (s : ConnStore) (A B : Nat)
    (hA : s.users.contains A = true) (hB : s.users.contains B = true) (hAB : A ≠ B) :
    (getConnection s A B = none →
      getConnectionStatus s A B = .noConnection ∧
      getConnectionStatus s B A = .noConnection) ∧
    (∀ c, getConnection s A B = some c →
      getConnectionStatus s A B = .found c.status (relationshipFor c A) c ∧
      getConnectionStatus s B A = .found c.status (relationshipFor c B) c ∧
      (c.status = ConnectionStatus.accepted →
        relationshipFor c A = "connected" ∧ relationshipFor c B = "connected") ∧
      (c.status = ConnectionStatus.rejected →
        relationshipFor c A = "rejected" ∧ relationshipFor c B = "rejected") ∧
      (c.status = ConnectionStatus.pending →
        (c.requester = A →
          relationshipFor c A = "request_sent" ∧ relationshipFor c B = "request_received") ∧
        (c.requester = B →
          relationshipFor c A = "request_received" ∧ relationshipFor c B = "request_sent"))) := by
  have hAm : A ∈ s.users := by simpa using hA
  have hBm : B ∈ s.users := by simpa using hB
  have hsymm : getConnection s B A = getConnection s A B := getConnection_symm s B A
  constructor
  · intro hnone
    constructor
    · simp [getConnectionStatus, hBm, hnone]
    · simp [getConnectionStatus, hAm, hsymm, hnone]
  · intro c hc
    refine ⟨by simp [getConnectionStatus, hBm, hc], by simp [getConnectionStatus, hAm, hsymm, hc],
      ?_, ?_, ?_⟩
    · intro hst
      simp [relationshipFor, hst]
    · intro hst
      simp [relationshipFor, hst]
    · intro hst
      constructor
      · intro hq
        constructor
        · simp [relationshipFor, hst, hq]
        · simp [relationshipFor, hst, hq, beq_eq_false_iff_ne.mpr hAB]
      · intro hq
        constructor
        · simp [relationshipFor, hst, hq, beq_eq_false_iff_ne.mpr (Ne.symm hAB)]
        · simp [relationshipFor, hst, hq]

/-- C6 witness: a pending record 1 → 2; user 1 sees `request_sent`, user 2
sees `request_received`, both on the same record. -/
theorem status_lookup_symmetric_witness :
    getConnectionStatus (ConnStore.mk [ConnRec.mk 0 1 2 ConnectionStatus.pending none 0] [1, 2] 1 1)
        1 2 =
      .found ConnectionStatus.pending
        (relationshipFor (ConnRec.mk 0 1 2 ConnectionStatus.pending none 0) 1)
        (ConnRec.mk 0 1 2 ConnectionStatus.pending none 0) ∧
    getConnectionStatus (ConnStore.mk [ConnRec.mk 0 1 2 ConnectionStatus.pending none 0] [1, 2] 1 1)
        2 1 =
      .found ConnectionStatus.pending
        (relationshipFor (ConnRec.mk 0 1 2 ConnectionStatus.pending none 0) 2)
        (ConnRec.mk 0 1 2 ConnectionStatus.pending none 0) ∧
    relationshipFor (ConnRec.mk 0 1 2 ConnectionStatus.pending none 0) 1 = "request_sent" ∧
    relationshipFor (ConnRec.mk 0 1 2 ConnectionStatus.pending none 0) 2 = "request_received" := by
  have h := (status_lookup_symmetric
      (ConnStore.mk [ConnRec.mk 0 1 2 ConnectionStatus.pending none 0] [1, 2] 1 1) 1 2
      (by decide) (by decide) (by decide)).2
      (ConnRec.mk 0 1 2 ConnectionStatus.pending none 0) (by decide)
  obtain ⟨h1, h2, -, -, h5⟩ := h
  obtain ⟨h6, h7⟩ := (h5 rfl).1 rfl
  exact ⟨h1, h2, h6, h7⟩

/-- C7: under the one-record-per-pair invariant, remove succeeds exactly
when the record exists, the actor is one of the two parties, and the
status is accepted; on success the record is deleted, so the pair lookup
— and hence a subsequent status query between the two parties — reports
no connection. -/
theorem remove_deletes_connection (s : ConnStore) (id u : Nat) (hu : PairUnique s) :
    ((removeConnection s id u).1 = .ok () ↔
      ∃ c, connFindById s id = some c ∧ (c.requester = u ∨ c.recipient = u) ∧
        c.status = ConnectionStatus.accepted) ∧
    (∀ c, connFindById s id = some c → (c.requester = u ∨ c.recipient = u) →
      c.status = ConnectionStatus.accepted →
      ∃ s', removeConnection s id u = (.ok (), s') ∧
        getConnection s' c.requester c.recipient = none ∧
        (s'.users.contains c.recipient = true →
          getConnectionStatus s' c.requester c.recipient = .noConnection)) := by
  have hpart2 : ∀ c, connFindById s id = some c → (c.requester = u ∨ c.recipient = u) →
      c.status = ConnectionStatus.accepted →
      removeConnection s id u =
        (.ok (), { s with conns := s.conns.filter (fun d => d.cid != id) }) := by
    intro c hc hrole hst
    have hguard : (c.requester != u && c.recipient != u) = false := by
      rcases hrole with h | h <;> simp [h]
    simp [removeConnection, hc, hguard, hst]
  have hgone : ∀ c, connFindById s id = some c →
      getConnection { s with conns := s.conns.filter (fun d => d.cid != id) }
        c.requester c.recipient = none := by
    intro c hc
    unfold getConnection
    rw [List.find?_eq_none]
    intro d hd hmatch
    obtain ⟨hdmem, hdkeep⟩ := List.mem_filter.mp hd
    have hsp : samePair c d := samePair_of_connMatches rfl rfl hmatch
    have hcmem : c ∈ s.conns := List.mem_of_find?_eq_some hc
    have hcd : c = d := hu c hcmem d hdmem hsp
    subst hcd
    have hcid := List.find?_some (show s.conns.find? (fun d => d.cid == id) = some c from hc)
    simp only at hcid
    exact absurd (by simpa using hcid) (by simpa using hdkeep)
  constructor
  · constructor
    · intro hok
      cases hc : connFindById s id with
      | none => simp [removeConnection, hc] at hok
      | some c =>
        by_cases hg : (c.requester != u && c.recipient != u) = true
        · simp [removeConnection, hc, hg] at hok
        · by_cases hs2 : (c.status != ConnectionStatus.accepted) = true
          · simp [removeConnection, hc, hg, hs2] at hok
          · refine ⟨c, rfl, ?_, ?_⟩
            · rcases eq_or_ne c.requester u with h | h
              · exact Or.inl h
              · rcases eq_or_ne c.recipient u with h2 | h2
                · exact Or.inr h2
                · exact absurd (by simp [bne_iff_ne.mpr h, bne_iff_ne.mpr h2]) hg
            · have := hs2
              simp only [bne_iff_ne, ne_eq, not_not, Bool.not_eq_true] at this
              simpa [bne] using this
    · rintro ⟨c, hc, hrole, hst⟩
      rw [hpart2 c hc hrole hst]
  · intro c hc hrole hst
    refine ⟨_, hpart2 c hc hrole hst, hgone c hc, fun hcont => ?_⟩
    have hrm : c.recipient ∈ s.users := by simpa using hcont
    simp [getConnectionStatus, hrm, hgone c hc]

/-- C7 witness: user 1 removes the accepted connection (id 0) between
users 1 and 2; afterwards the pair lookup and the status query report no
connection. -/
theorem remove_deletes_connection_witness :
    ∃ s', removeConnection
        (ConnStore.mk [ConnRec.mk 0 1 2 ConnectionStatus.accepted none 0] [1, 2] 1 1) 0 1 =
        (.ok (), s') ∧
      getConnection s' 1 2 = none ∧
      (s'.users.contains 2 = true → getConnectionStatus s' 1 2 = .noConnection) :=
  (remove_deletes_connection
      (ConnStore.mk [ConnRec.mk 0 1 2 ConnectionStatus.accepted none 0] [1, 2] 1 1) 0 1
      (by decide)).2 (ConnRec.mk 0 1 2 ConnectionStatus.accepted none 0)
    (by decide) (Or.inl rfl) rfl

/-- C10: given that no record is a self-connection, the sent and received
lists of the query-all response partition the result — every returned
connection lies in exactly one of the two lists, and the count equals the
length of sent plus the length of received. -/
theorem all_requests_partition (s : ConnStore) (u : Nat) (stf : Option ConnectionStatus)
    (hns : NoSelf s) :
    (getAllConnectionRequests s u stf).count =
      (getAllConnectionRequests s u stf).sent.length +
        (getAllConnectionRequests s u stf).received.length ∧
    ∀ c ∈ (getAllConnectionRequests s u stf).all,
      (c ∈ (getAllConnectionRequests s u stf).sent ↔ c.requester = u) ∧
      (c ∈ (getAllConnectionRequests s u stf).received ↔ c.recipient = u) ∧
      ¬ (c.requester = u ∧ c.recipient = u) := by
  have hall : ∀ c ∈ getUserConnections s u stf,
      c ∈ s.conns ∧ (c.requester == u || c.recipient == u) = true := by
    intro c hc
    unfold getUserConnections at hc
    rw [mem_sortByCreatedDesc] at hc
    obtain ⟨h1, h2⟩ := List.mem_filter.mp hc
    simp only [Bool.and_eq_true] at h2
    exact ⟨h1, h2.1⟩
  have hpt : ∀ c ∈ getUserConnections s u stf,
      (c.requester == u) = !(c.recipient == u) := by
    intro c hc
    obtain ⟨hmem, hor⟩ := hall c hc
    have hne : c.requester ≠ c.recipient := hns c hmem
    cases hq : (c.requester == u) <;> cases hr : (c.recipient == u)
    · rw [hq, hr] at hor
      simp at hor
    · rfl
    · rfl
    · exact absurd ((beq_iff_eq.mp hq).trans (beq_iff_eq.mp hr).symm) hne
  constructor
  · exact length_filter_partition (fun c => c.requester == u) (fun c => c.recipient == u)
      (getUserConnections s u stf) hpt
  · intro c hcall
    have hcall' : c ∈ getUserConnections s u stf := hcall
    obtain ⟨hmem, hor⟩ := hall c hcall'
    have hne : c.requester ≠ c.recipient := hns c hmem
    refine ⟨⟨?_, ?_⟩, ⟨?_, ?_⟩, ?_⟩
    · intro hsent
      have hp := (List.mem_filter.mp hsent).2
      simpa using hp
    · intro hq
      exact List.mem_filter.mpr ⟨hcall', by simpa using hq⟩
    · intro hrecv
      have hp := (List.mem_filter.mp hrecv).2
      simpa using hp
    · intro hq
      exact List.mem_filter.mpr ⟨hcall', by simpa using hq⟩
    · rintro ⟨h1, h2⟩
      exact hne (h1.trans h2.symm)

/-- C10 witness: a store with one sent and one received record for user 1;
the response partitions them and the count adds up. -/
theorem all_requests_partition_witness :
    (getAllConnectionRequests
        (ConnStore.mk [ConnRec.mk 0 1 2 ConnectionStatus.pending none 0,
          ConnRec.mk 1 3 1 ConnectionStatus.accepted none 1] [1, 2, 3] 2 2) 1 none).count =
      (getAllConnectionRequests
        (ConnStore.mk [ConnRec.mk 0 1 2 ConnectionStatus.pending none 0,
          ConnRec.mk 1 3 1 ConnectionStatus.accepted none 1] [1, 2, 3] 2 2) 1 none).sent.length +
      (getAllConnectionRequests
        (ConnStore.mk [ConnRec.mk 0 1 2 ConnectionStatus.pending none 0,
          ConnRec.mk 1 3 1 ConnectionStatus.accepted none 1] [1, 2, 3] 2 2) 1 none).received.length :=
  (all_requests_partition
    (ConnStore.mk [ConnRec.mk 0 1 2 ConnectionStatus.pending none 0,
      ConnRec.mk 1 3 1 ConnectionStatus.accepted none 1] [1, 2, 3] 2 2) 1 none (by decide)).1

/-! ## Claim about the chat controller -/

/-- C9: a self-send is rejected with a validation (400-class) error and no
message is stored; blank content is likewise rejected; every failure
leaves the store unchanged; and on success the stored record carries the
trimmed content, the right parties, and the unread flag. -/
theorem message_self_send_rejected (s : MsgStore) (snd rcp content : String) :
    (snd = rcp →
      ∃ e, sendMessage s snd rcp content = (.error e, s) ∧ msgErrIsValidation e = true) ∧
    (jsTrim content = "" →
      ∃ e, sendMessage s snd rcp content = (.error e, s) ∧ msgErrIsValidation e = true) ∧
    (∀ m s', sendMessage s snd rcp content = (.ok m, s') →
      m.sender = snd ∧ m.recipient = rcp ∧ m.content = jsTrim content ∧ m.read = false ∧
      s'.messages = s.messages ++ [m]) ∧
    (∀ e s', sendMessage s snd rcp content = (.error e, s') → s' = s) := by
  refine ⟨?_, ?_, ?_, ?_⟩
  · intro heq
    by_cases hv : isValidObjectId rcp = true
    · by_cases hct : jsTrim content = ""
      · exact ⟨.contentRequired, by simp [sendMessage, hv, hct], rfl⟩
      · exact ⟨.selfMessage, by simp [sendMessage, hv, hct, heq], rfl⟩
    · have hv' : isValidObjectId rcp = false := by simpa using hv
      exact ⟨.invalidRecipientId, by simp [sendMessage, hv'], rfl⟩
  · intro hct
    by_cases hv : isValidObjectId rcp = true
    · exact ⟨.contentRequired, by simp [sendMessage, hv, hct], rfl⟩
    · have hv' : isValidObjectId rcp = false := by simpa using hv
      exact ⟨.invalidRecipientId, by simp [sendMessage, hv'], rfl⟩
  · intro m s' hsend
    unfold sendMessage at hsend
    split at hsend
    · simp at hsend
    split at hsend
    · simp at hsend
    split at hsend
    · simp at hsend
    split at hsend
    · simp at hsend
    injection hsend with h1 h2
    injection h1 with h1
    subst h2
    subst h1
    exact ⟨rfl, rfl, rfl, rfl, rfl⟩
  · intro e s' hsend
    unfold sendMessage at hsend
    split at hsend
    · injection hsend with h1 h2
      exact h2.symm
    split at hsend
    · injection hsend with h1 h2
      exact h2.symm
    split at hsend
    · injection hsend with h1 h2
      exact h2.symm
    split at hsend
    · injection hsend with h1 h2
      exact h2.symm
    simp at hsend

/-- C9 witness: sending a message to oneself is rejected with a validation
error and the store is unchanged. -/
theorem message_self_send_rejected_witness :
    ∃ e, sendMessage (MsgStore.mk [] ["507f1f77bcf86cd799439011"])
        "507f1f77bcf86cd799439011" "507f1f77bcf86cd799439011" "hello" =
      (.error e, MsgStore.mk [] ["507f1f77bcf86cd799439011"]) ∧
      msgErrIsValidation e = true :=
  (message_self_send_rejected (MsgStore.mk [] ["507f1f77bcf86cd799439011"])
    "507f1f77bcf86cd799439011" "507f1f77bcf86cd799439011" "hello").1 rfl

end SkillSwap
